import Mathlib

/-!
Shallow embedding of the `events_loop` crate (`src/lib.rs`).

The crate defines an abstract interface for retrieving events:
the `ControlFlow` signal enum, the `EventsLoopClosed` error type,
the `EventsLoop` / `EventsLoopProxy` traits, and a tiny in-memory
test double `Loop` (in the `tests` module) whose `poll_events`
emits the events `A` then `B`, and whose `run` calls the callback
with `C` in a `while` loop until the callback returns `Break`.

Rust `FnMut` closures are embedded as explicit state passing: a
callback of type `FnMut(Events)` becomes `sigma -> Events -> sigma`
and a callback of type `FnMut(Events) -> ControlFlow` becomes
`sigma -> Events -> sigma × ControlFlow`, where `sigma` is the
closure's captured state.  The unbounded `while` loop in `run` is
embedded fuel-indexed: `runFuel` returns `none` when the loop has
not finished within the given number of iterations, so divergence
is the statement that every fuel yields `none`.
-/

namespace EventsLoopSpec

/-- Control-flow signal returned by the user callback given to
`EventsLoop::run`; `Continue` keeps looping, `Break` exits the loop.
(from `enum ControlFlow`, src/lib.rs lines 6-12). -/
inductive ControlFlow where
  | Continue : ControlFlow
  | Break : ControlFlow
deriving DecidableEq, Repr

/-- The event type of the test double (from `enum Events { A, B, C }`,
src/lib.rs lines 87-90). -/
inductive Events where
  | A : Events
  | B : Events
  | C : Events
deriving DecidableEq, Repr

/-- Zero-data error returned when an `EventsLoopProxy` attempts to wake
up an `EventsLoop` that no longer exists (from `struct EventsLoopClosed;`,
src/lib.rs line 70, with derived `PartialEq`, `Eq`, `Hash`). -/
structure EventsLoopClosed
deriving DecidableEq, Hashable, Repr

/-- The `Error::description` implementation for `EventsLoopClosed`
(src/lib.rs lines 78-82): it returns a fixed string. -/
def EventsLoopClosed.description (_ : EventsLoopClosed) : String :=
  "Tried to wake up a closed `EventsLoop`"

/-- The `Display` implementation for `EventsLoopClosed`
(src/lib.rs lines 72-76): `write!(f, "{}", Error::description(self))`,
so the rendered text is exactly the description string. -/
def EventsLoopClosed.displayFmt (e : EventsLoopClosed) : String :=
  e.description

/-- Embedding of the `EventsLoopProxy` trait object (src/lib.rs lines
49-58): the one capability relevant to the error contract is `wakeup`,
returning `Result<(), EventsLoopClosed>`, embedded as `Except`. -/
structure EventsLoopProxy where
  wakeup : Unit → Except EventsLoopClosed Unit

/-- The test double `struct Loop;` (src/lib.rs line 92): a unit struct
with no fields. -/
structure Loop

/-- The test double's `poll_events` (src/lib.rs lines 95-100): it calls
the callback with `Events::A` and then with `Events::B`, and returns.
The `FnMut(Events)` callback is state `s : sigma` plus step function `c`. -/
def Loop.poll_events {σ : Type} (_ : Loop) (c : σ → Events → σ) (s : σ) : σ :=
  c (c s Events.A) Events.B

/-- The test double's `run` (src/lib.rs lines 102-108):
`while c(Events::C) == ControlFlow::Continue {}` — each iteration calls
the callback once with `Events::C` and exits when it returns `Break`.
Fuel-indexed embedding of the unbounded loop: `none` means the loop did
not finish within `fuel` iterations. -/
def Loop.runFuel {σ : Type} (l : Loop) (c : σ → Events → σ × ControlFlow) :
    Nat → σ → Option σ
  | 0, _ => none
  | fuel + 1, s =>
    match c s Events.C with
    | (s', ControlFlow.Continue) => l.runFuel c fuel s'
    | (s', ControlFlow.Break) => some s'

/-- The test double's `create_proxy` (src/lib.rs lines 110-112): its body
is `unimplemented!()`, which unconditionally panics; there is no branch
producing a proxy, so the embedding has no `some` branch. -/
def Loop.create_proxy (_ : Loop) : Option EventsLoopProxy :=
  none

/-- Instrumentation of a `run` callback: alongside the callback's own
state it records the list of events the loop delivered to it, in order.
This does not change the callback's answers, it only observes the calls. -/
def instrument {σ : Type} (c : σ → Events → σ × ControlFlow) :
    σ × List Events → Events → (σ × List Events) × ControlFlow :=
  fun p e => ((( c p.1 e).1, p.2 ++ [e]), (c p.1 e).2)

/-- Instrumentation of a `poll_events` callback: records the list of
events delivered to it, in order, alongside its own state. -/
def instrumentPoll {σ : Type} (c : σ → Events → σ) :
    σ × List Events → Events → σ × List Events :=
  fun p e => (c p.1 e, p.2 ++ [e])

/-- A callback policy that answers `p i` on its `i`-th invocation
(0-indexed): the captured state is the invocation counter. -/
def policyCallback (p : Nat → ControlFlow) : Nat → Events → Nat × ControlFlow :=
  fun i _ => (i + 1, p i)

/-! Helper lemmas about the fuel-indexed embedding of `run`. -/

/-- Unfolding: one iteration whose callback answers `Continue` recurses. -/
theorem runFuel_cont {σ : Type} (l : Loop) (c : σ → Events → σ × ControlFlow)
    (fuel : Nat) (s s' : σ) (h : c s Events.C = (s', ControlFlow.Continue)) :
    l.runFuel c (fuel + 1) s = l.runFuel c fuel s' := by
  simp [Loop.runFuel, h]

/-- Unfolding: one iteration whose callback answers `Break` returns. -/
theorem runFuel_break {σ : Type} (l : Loop) (c : σ → Events → σ × ControlFlow)
    (fuel : Nat) (s s' : σ) (h : c s Events.C = (s', ControlFlow.Break)) :
    l.runFuel c (fuel + 1) s = some s' := by
  simp [Loop.runFuel, h]

/-- Any terminating run of the instrumented callback appends to the
starting record a positive number of copies of `Events.C`. -/
theorem runFuel_instrument_trace {σ : Type} (l : Loop)
    (c : σ → Events → σ × ControlFlow) :
    ∀ (fuel : Nat) (s : σ) (tr0 : List Events) (s' : σ) (tr : List Events),
      l.runFuel (instrument c) fuel (s, tr0) = some (s', tr) →
      ∃ k : Nat, tr = tr0 ++ List.replicate (k + 1) Events.C
  | 0, s, tr0, s', tr, h => by
      simp [Loop.runFuel] at h
  | fuel + 1, s, tr0, s', tr, h => by
      rcases hc : c s Events.C with ⟨s1, cf⟩
      cases cf with
      | Continue =>
          have hstep : instrument c (s, tr0) Events.C
              = ((s1, tr0 ++ [Events.C]), ControlFlow.Continue) := by
            simp [instrument, hc]
          rw [runFuel_cont l (instrument c) fuel (s, tr0) (s1, tr0 ++ [Events.C]) hstep] at h
          obtain ⟨k, hk⟩ := runFuel_instrument_trace l c fuel s1 (tr0 ++ [Events.C]) s' tr h
          refine ⟨k + 1, ?_⟩
          rw [hk, List.append_assoc]
          simp [List.replicate_succ]
      | Break =>
          have hstep : instrument c (s, tr0) Events.C
              = ((s1, tr0 ++ [Events.C]), ControlFlow.Break) := by
            simp [instrument, hc]
          rw [runFuel_break l (instrument c) fuel (s, tr0) (s1, tr0 ++ [Events.C]) hstep] at h
          refine ⟨0, ?_⟩
          simp at h
          simp [h.2.symm]

/-- For a counting callback following policy `p` that answers `Continue`
strictly before invocation `K` and `Break` at invocation `K`, a run that
starts at counter `j ≤ K` with more than `K - j` fuel returns counter
`K + 1`. -/
theorem runFuel_policy_aux (p : Nat → ControlFlow) (K : Nat)
    (hK : p K = ControlFlow.Break)
    (hC : ∀ i : Nat, i < K → p i = ControlFlow.Continue) :
    ∀ (d j fuel : Nat), j + d = K → d < fuel → ∀ l : Loop,
      l.runFuel (policyCallback p) fuel j = some (K + 1)
  | 0, j, fuel, hjd, hdf, l => by
      obtain ⟨m, rfl⟩ : ∃ m, fuel = m + 1 := ⟨fuel - 1, by omega⟩
      have hj : j = K := by omega
      subst hj
      have hstep : policyCallback p j Events.C = (j + 1, ControlFlow.Break) := by
        simp [policyCallback, hK]
      rw [runFuel_break l (policyCallback p) m j (j + 1) hstep]
  | d + 1, j, fuel, hjd, hdf, l => by
      obtain ⟨m, rfl⟩ : ∃ m, fuel = m + 1 := ⟨fuel - 1, by omega⟩
      have hjK : j < K := by omega
      have hstep : policyCallback p j Events.C = (j + 1, ControlFlow.Continue) := by
        simp [policyCallback, hC j hjK]
      rw [runFuel_cont l (policyCallback p) m j (j + 1) hstep]
      exact runFuel_policy_aux p K hK hC d (j + 1) m (by omega) (by omega) l

/-! Claim theorems. -/

/-- C1: for every natural number K and every callback policy that returns
`Continue` on its first K invocations and `Break` on the (K+1)-th, `run`
on the test double invokes the callback exactly K+1 times and then
returns: with any sufficient fuel the fuel-indexed loop terminates with
invocation counter K+1. -/
theorem run_policy_terminates_after_K_plus_one (K : Nat) (p : Nat → ControlFlow)
    (h1 : ∀ i : Nat, i < K → p i = ControlFlow.Continue)
    (h2 : p K = ControlFlow.Break) (fuel : Nat) (hf : K < fuel) (l : Loop) :
    l.runFuel (policyCallback p) fuel 0 = some (K + 1) :=
  runFuel_policy_aux p K h2 h1 K 0 fuel (by omega) hf l

/-- Witness for C1 at K = 2: the policy answering `Continue` below 2 and
`Break` at 2 makes the loop return counter 3 with fuel 3. -/
theorem run_policy_terminates_after_K_plus_one_witness :
    (∀ i : Nat, i < 2 →
      (if i < 2 then ControlFlow.Continue else ControlFlow.Break) = ControlFlow.Continue) ∧
    (if 2 < 2 then ControlFlow.Continue else ControlFlow.Break) = ControlFlow.Break ∧
    Loop.runFuel ⟨⟩
      (policyCallback (fun i => if i < 2 then ControlFlow.Continue else ControlFlow.Break))
      3 0 = some 3 :=
  ⟨fun _ hi => by simp [hi], by decide,
    run_policy_terminates_after_K_plus_one 2
      (fun i => if i < 2 then ControlFlow.Continue else ControlFlow.Break)
      (fun _ hi => by simp [hi]) (by decide) 3 (by decide) ⟨⟩⟩

/-- C2: a single `poll_events` call on the test double invokes the
callback exactly twice, first with `A` and then with `B`, and returns:
the instrumented callback records the trace `[A, B]` for every callback,
and a plain recording callback records exactly `[A, B]`. -/
theorem poll_events_delivers_A_then_B {σ : Type} (c : σ → Events → σ)
    (s : σ) (l : Loop) :
    l.poll_events (instrumentPoll c) (s, [])
        = (c (c s Events.A) Events.B, [Events.A, Events.B]) ∧
    l.poll_events (fun (acc : List Events) (e : Events) => acc ++ [e]) []
        = [Events.A, Events.B] :=
  ⟨rfl, rfl⟩

/-- C3 counterexample: the code's `Error::description` string is not the
string claimed by the spec ("Tried to wake up a closed event loop"). -/
theorem description_ne_spec_claim_string :
    EventsLoopClosed.description ⟨⟩ ≠ "Tried to wake up a closed event loop" := by
  decide

/-- C3 amended: the textual rendering of the `EventsLoopClosed` error —
its `Display` output and its `Error::description` — is the string
"Tried to wake up a closed \x60EventsLoop\x60" (with backquotes around
the type name), not "Tried to wake up a closed event loop". -/
theorem events_loop_closed_text_rendering (e : EventsLoopClosed) :
    e.description = "Tried to wake up a closed `EventsLoop`" ∧
    e.displayFmt = "Tried to wake up a closed `EventsLoop`" :=
  ⟨rfl, rfl⟩

/-- C4: if the callback returns `Continue` on every invocation then the
test double's `run` never returns: every fuel bound is exhausted with the
fuel-indexed loop yielding `none`, from every starting state. -/
theorem run_all_continue_diverges {σ : Type} (c : σ → Events → σ × ControlFlow)
    (h : ∀ s : σ, (c s Events.C).2 = ControlFlow.Continue) :
    ∀ (fuel : Nat) (s : σ) (l : Loop), l.runFuel c fuel s = none := by
  intro fuel
  induction fuel with
  | zero => intro s l; simp [Loop.runFuel]
  | succ n ih =>
      intro s l
      rcases hc : c s Events.C with ⟨s1, cf⟩
      have h2 := h s
      rw [hc] at h2
      simp at h2
      subst h2
      rw [runFuel_cont l c n s s1 hc]
      exact ih s1 l

/-- Witness for C4: the constantly-`Continue` callback exhausts fuel 5. -/
theorem run_all_continue_diverges_witness :
    (∀ s : Unit,
      ((fun (s : Unit) (_ : Events) => (s, ControlFlow.Continue)) s Events.C).2
        = ControlFlow.Continue) ∧
    Loop.runFuel ⟨⟩ (fun (s : Unit) (_ : Events) => (s, ControlFlow.Continue)) 5 ()
      = none :=
  ⟨fun _ => rfl,
    run_all_continue_diverges (fun (s : Unit) (_ : Events) => (s, ControlFlow.Continue))
      (fun _ => rfl) 5 () ⟨⟩⟩

/-- C5: a callback that returns `Break` on its first invocation makes the
test double's `run` return after exactly one invocation, and the single
event delivered is `C`: the instrumented run terminates with recorded
trace `[C]` for any fuel. -/
theorem run_break_first_single_C {σ : Type} (c : σ → Events → σ × ControlFlow)
    (s : σ) (h : (c s Events.C).2 = ControlFlow.Break) (n : Nat) (l : Loop) :
    l.runFuel (instrument c) (n + 1) (s, [])
      = some ((c s Events.C).1, [Events.C]) := by
  have hstep : instrument c (s, []) Events.C
      = (((c s Events.C).1, [Events.C]), ControlFlow.Break) := by
    simp [instrument, h]
  exact runFuel_break l (instrument c) n (s, []) ((c s Events.C).1, [Events.C]) hstep

/-- Witness for C5: a callback answering `Break` at once yields `[C]`. -/
theorem run_break_first_single_C_witness :
    ((fun (s : Unit) (_ : Events) => (s, ControlFlow.Break)) () Events.C).2
      = ControlFlow.Break ∧
    Loop.runFuel ⟨⟩ (instrument (fun (s : Unit) (_ : Events) => (s, ControlFlow.Break)))
      1 ((), []) = some ((), [Events.C]) :=
  ⟨rfl,
    run_break_first_single_C (fun (s : Unit) (_ : Events) => (s, ControlFlow.Break))
      () rfl 0 ⟨⟩⟩

/-- C6: `create_proxy` on the test double never returns a proxy: its body
is an unconditional `unimplemented!()` panic, embedded as an `Option`
with no `some` branch, so for every loop value the call produces no
proxy. -/
theorem create_proxy_never_produces_proxy (l : Loop) :
    l.create_proxy = none ∧ (Loop.create_proxy l).isSome = false :=
  ⟨rfl, rfl⟩

/-- C7: `wakeup` is the only fallible operation of the interface: its
result type is `Result<(), EventsLoopClosed>` and the only error value
it can hold is the unique `EventsLoopClosed` value, while in this
embedding `poll_events` and `run` return plain callback state with no
error channel in their types. -/
theorem wakeup_sole_error_is_events_loop_closed :
    (∀ e : EventsLoopClosed, e = ⟨⟩) ∧
    (∀ (pr : EventsLoopProxy) (u : Unit),
      pr.wakeup u = Except.ok () ∨ pr.wakeup u = Except.error ⟨⟩) := by
  constructor
  · intro e
    cases e
    rfl
  · intro pr u
    rcases pr.wakeup u with a | a
    · cases a
      exact Or.inr rfl
    · cases a
      exact Or.inl rfl

/-- C8: `EventsLoopClosed` carries no data and is always
equality-comparable: any two values are equal, the derived decidable
equality answers `true` on any pair, and boolean equality on the type is
an equivalence relation. -/
theorem events_loop_closed_trivial_equality :
    (∀ x y : EventsLoopClosed, x = y) ∧
    (∀ x y : EventsLoopClosed, (x == y) = true) ∧
    Equivalence (fun a b : EventsLoopClosed => (a == b) = true) := by
  refine ⟨fun x y => ?_, fun x y => ?_, ⟨fun a => ?_, fun h => ?_, fun h h2 => ?_⟩⟩
  · cases x; cases y; rfl
  · cases x; cases y; rfl
  · cases a; rfl
  · exact h
  · exact h2

/-- C10: every callback invocation made by the test double's `run`
receives the event `C`: for every callback and every terminating
instrumented execution, the recorded event sequence is `C` repeated a
positive number of times (never containing `A` or `B`). -/
theorem run_trace_only_C_events {σ : Type} (c : σ → Events → σ × ControlFlow)
    (fuel : Nat) (s s' : σ) (tr : List Events) (l : Loop)
    (h : l.runFuel (instrument c) fuel (s, []) = some (s', tr)) :
    ∃ k : Nat, tr = List.replicate (k + 1) Events.C := by
  obtain ⟨k, hk⟩ := runFuel_instrument_trace l c fuel s [] s' tr h
  exact ⟨k, by simpa using hk⟩

/-- Witness for C10: a run of two invocations records `[C, C]`. -/
theorem run_trace_only_C_events_witness :
    Loop.runFuel ⟨⟩
      (instrument (fun (i : Nat) (_ : Events) =>
        (i + 1, if i = 0 then ControlFlow.Continue else ControlFlow.Break)))
      2 (0, []) = some (2, [Events.C, Events.C]) ∧
    ∃ k : Nat, [Events.C, Events.C] = List.replicate (k + 1) Events.C :=
  ⟨rfl,
    run_trace_only_C_events
      (fun (i : Nat) (_ : Events) =>
        (i + 1, if i = 0 then ControlFlow.Continue else ControlFlow.Break))
      2 0 2 [Events.C, Events.C] ⟨⟩ rfl⟩

end EventsLoopSpec
